import Mathlib

/-!
Shallow embedding of the zapdm document-ingestion / full-text-index core.

Sources embedded:
* `src/newdms/services/pdfService.js`                         (processPDFPages)
* `src/backend/newdms/database/models/old/DocumentPage.js`    (getNextPageNumber,
  createPage, reorderPages, softDeletePage)
* `src/backend/newdms/database/models/Document.js`            (updateOCRStatus,
  incrementPageCount)
* `src/newdms/database/models/Role.js`                        (updateFTSIndex,
  rebuildFTSIndex, searchDocuments)
* `src/backend/newdms/routes/documentRoutes.js`               (POST /:documentId/pages)
* `src/unnamed/part_006` = `newdms/routes/searchRoutes.js`    (GET /api/search guard)

Modelling conventions: the SQLite store is a record of row lists; auto-increment
keys are an explicit counter; SQL `NULL` is `Option`; timestamps, file paths,
file sizes and the on-disk artifacts (produced by `fs`, `uuid`, `pdf2pic`,
`sharp`) are outside the model and the corresponding columns are omitted or
carried as opaque strings; fallible JS code is `Except`.
-/

namespace Zapdm

/-- Result of `OCRService.performOCR`: `{text, confidence, wordCount}`. -/
structure OcrData where
  text : String
  confidence : Nat
  wordCount : Nat
deriving Repr, DecidableEq

/-- A row of the `document_pages` table (columns the core reads or writes;
file_path / file_size / mime_type / thumbnail_path and timestamps are
filesystem artifacts outside the model). -/
structure PageRow where
  id : Nat
  document_id : Nat
  page_number : Nat
  page_order : Nat
  file_name : String
  source_file_name : String
  status : Option String
  ocr_text : Option String
  ocr_confidence : Option Nat
  ocr_language : Option String
  word_count : Nat
deriving Repr, DecidableEq

/-- A row of the `documents` table (OCR-relevant columns; timestamps omitted). -/
structure DocumentRow where
  id : Nat
  project_id : Nat
  title : String
  status : String
  total_pages : Nat
  has_ocr_text : Bool
  ocr_language : Option String
deriving Repr, DecidableEq

/-- A row of the `document_fts` full-text index table. -/
structure FtsRow where
  page_id : Nat
  document_id : Nat
  project_id : Nat
  document_title : String
  page_text : String
deriving Repr, DecidableEq

/-- A row of the `projects` table (columns read by searchDocuments). -/
structure ProjectRow where
  id : Nat
  name : String
  status : String
deriving Repr, DecidableEq

/-- A row of the `users` table (columns read by the search access filter). -/
structure UserRow where
  id : Nat
  role_id : Nat
deriving Repr, DecidableEq

/-- A row of the `project_roles` table. -/
structure ProjectRoleRow where
  project_id : Nat
  role_id : Nat
deriving Repr, DecidableEq

/-- A row of the `user_project_access` table. -/
structure UserProjectAccessRow where
  user_id : Nat
  project_id : Nat
deriving Repr, DecidableEq

/-- The SQLite database state.  `nextPageId` is the auto-increment key of
`document_pages`. -/
structure DB where
  documents : List DocumentRow
  document_pages : List PageRow
  document_fts : List FtsRow
  projects : List ProjectRow
  users : List UserRow
  project_roles : List ProjectRoleRow
  user_project_access : List UserProjectAccessRow
  nextPageId : Nat
deriving Repr, DecidableEq

/-- The recurring SQL predicate `(status IS NULL OR status = 'active')`. -/
def statusActive (s : Option String) : Bool :=
  s == none || s == some "active"

/-- Active pages of a document (`WHERE document_id = ? AND (status IS NULL OR
status = 'active')`). -/
def activePagesOf (db : DB) (documentId : Nat) : List PageRow :=
  db.document_pages.filter (fun p => p.document_id == documentId && statusActive p.status)

/-- `SELECT MAX(page_number) ...` over a list of pages, with SQL `NULL` (empty
set) collapsed to 0 by the JS `|| 0`. -/
def maxPageNumber (l : List PageRow) : Nat :=
  l.foldl (fun a p => Nat.max a p.page_number) 0

/-- `DocumentPage.getNextPageNumber`: max active page_number plus one
(`(lastPage.max_page || 0) + 1`). -/
def getNextPageNumber (db : DB) (documentId : Nat) : Nat :=
  maxPageNumber (activePagesOf db documentId) + 1

/-- `Document.findById` (BaseModel: `SELECT * FROM documents WHERE id = ?`). -/
def findDocument (db : DB) (id : Nat) : Option DocumentRow :=
  db.documents.find? (fun d => d.id == id)

/-- `DocumentPage.findById` (BaseModel: `SELECT * FROM document_pages WHERE id = ?`). -/
def findPage (db : DB) (id : Nat) : Option PageRow :=
  db.document_pages.find? (fun p => p.id == id)

/-- Field values passed to `DocumentPage.createPage` by the ingestion services. -/
structure PageData where
  document_id : Nat
  page_number : Nat
  page_order : Nat
  file_name : String
  source_file_name : String
  ocr_text : Option String
  ocr_confidence : Option Nat
  ocr_language : Option String
  word_count : Nat
deriving Repr, DecidableEq

/-- `DocumentPage.createPage`: BaseModel `create` of the page data with
`status: STATUS.ACTIVE`; returns the inserted row id (`lastInsertRowid`). -/
def createPage (db : DB) (d : PageData) : DB × Nat :=
  let pid := db.nextPageId
  let row : PageRow :=
    { id := pid, document_id := d.document_id, page_number := d.page_number,
      page_order := d.page_order, file_name := d.file_name,
      source_file_name := d.source_file_name, status := some "active",
      ocr_text := d.ocr_text, ocr_confidence := d.ocr_confidence,
      ocr_language := d.ocr_language, word_count := d.word_count }
  ({ db with document_pages := db.document_pages ++ [row], nextPageId := pid + 1 }, pid)

/-- `DELETE FROM document_fts WHERE page_id = ?`. -/
def ftsDeleteEntry (pageId : Nat) (db : DB) : DB :=
  { db with document_fts := db.document_fts.filter (fun r => r.page_id != pageId) }

/-- `INSERT INTO document_fts (...) VALUES (...)`. -/
def ftsInsertEntry (row : FtsRow) (db : DB) : DB :=
  { db with document_fts := db.document_fts ++ [row] }

/-- `Models.updateFTSIndex` (happy path, both statements succeed): delete any
entry keyed by `page_id`, then insert a fresh row only when
`ocrText && ocrText.trim().length > 0` (JS: `null` and `""` are falsy). -/
def updateFTSIndex (pageId documentId projectId : Nat) (documentTitle : String)
    (ocrText : Option String) (db : DB) : DB :=
  let db1 := ftsDeleteEntry pageId db
  match ocrText with
  | some t =>
      if 0 < t.trim.length then
        ftsInsertEntry
          { page_id := pageId, document_id := documentId, project_id := projectId,
            document_title := documentTitle, page_text := t } db1
      else db1
  | none => db1

/-- `Models.updateFTSIndex` with the two prepared statements allowed to throw
(`failDelete`, `failInsert` inject a DB error); an error carries the state
reached when the statement threw (each statement is atomic, there is no
surrounding transaction). -/
def updateFTSIndexSteps (failDelete failInsert : Bool)
    (pageId documentId projectId : Nat) (documentTitle : String)
    (ocrText : Option String) (db : DB) : Except (String × DB) DB := do
  let db1 ←
    if failDelete then Except.error ("Failed to update FTS index", db)
    else Except.ok (ftsDeleteEntry pageId db)
  match ocrText with
  | some t =>
      if 0 < t.trim.length then
        if failInsert then Except.error ("Failed to update FTS index", db1)
        else Except.ok (ftsInsertEntry
          { page_id := pageId, document_id := documentId, project_id := projectId,
            document_title := documentTitle, page_text := t } db1)
      else Except.ok db1
  | none => Except.ok db1

/-- `Models.updateFTSIndex` as its callers see it: the whole body is wrapped in
`try { ... } catch (error) { console.error(...) }`, so a thrown DB error is
swallowed (only logged) and the caller continues from the state reached. -/
def updateFTSIndexCaught (failDelete failInsert : Bool)
    (pageId documentId projectId : Nat) (documentTitle : String)
    (ocrText : Option String) (db : DB) : Except (String × DB) DB :=
  match updateFTSIndexSteps failDelete failInsert pageId documentId projectId
      documentTitle ocrText db with
  | Except.ok db2 => Except.ok db2
  | Except.error (_, db2) => Except.ok db2

/-- `Document.updateOCRStatus`: sets `has_ocr_text` and `ocr_language`
(timestamps omitted). -/
def updateOCRStatus (documentId : Nat) (hasOCRText : Bool) (language : String)
    (db : DB) : DB :=
  { db with documents := db.documents.map (fun d =>
      if d.id == documentId then
        { d with has_ocr_text := hasOCRText, ocr_language := some language }
      else d) }

/-- `Document.incrementPageCount`: `total_pages = total_pages + ?`. -/
def incrementPageCount (documentId : Nat) (inc : Nat) (db : DB) : DB :=
  { db with documents := db.documents.map (fun d =>
      if d.id == documentId then { d with total_pages := d.total_pages + inc }
      else d) }

/-- `DocumentPage.softDeletePage`: look the page up, set its status to
`'inactive'`, delete its `document_fts` entry, recompute the parent document's
`total_pages` as the count of remaining active pages, and return
`{document_id, remaining_pages}`.  Errors `'Page not found'` when the id is
absent. -/
def softDeletePage (pageId : Nat) (db : DB) : Except String (DB × Nat × Nat) :=
  match findPage db pageId with
  | none => Except.error "Page not found"
  | some page =>
      let db1 : DB :=
        { db with document_pages := db.document_pages.map (fun p =>
            if p.id == pageId then { p with status := some "inactive" } else p) }
      let db2 := ftsDeleteEntry pageId db1
      let remaining := (activePagesOf db2 page.document_id).length
      let db3 : DB :=
        { db2 with documents := db2.documents.map (fun d =>
            if d.id == page.document_id then { d with total_pages := remaining }
            else d) }
      Except.ok (db3, page.document_id, remaining)

/-- Does a page carry non-empty OCR text?  (Right-hand side of the spec
invariant on `has_ocr_text`.) -/
def pageHasOcrText (p : PageRow) : Bool :=
  match p.ocr_text with
  | some t => t != ""
  | none => false

/-- Does at least one active child page of the document carry non-empty OCR
text?  (Formalizes the spec sentence the `has_ocr_text` flag is claimed to
track.) -/
def docHasActiveOcrText (db : DB) (documentId : Nat) : Bool :=
  (activePagesOf db documentId).any pageHasOcrText

/-- One element of the `page_order` array taken by `reorderPages`. -/
structure PageOrderPair where
  page_id : Nat
  new_page_number : Nat
deriving Repr, DecidableEq

/-- One `UPDATE document_pages SET page_number = ?, page_order = ? WHERE id = ?
AND document_id = ?` statement; returns the new state and `result.changes`. -/
def reorderOne (documentId : Nat) (pu : PageOrderPair) (db : DB) : DB × Nat :=
  let changes := (db.document_pages.filter (fun p =>
    p.id == pu.page_id && p.document_id == documentId)).length
  let db' : DB :=
    { db with document_pages := db.document_pages.map (fun p =>
        if p.id == pu.page_id && p.document_id == documentId then
          { p with page_number := pu.new_page_number, page_order := pu.new_page_number }
        else p) }
  (db', changes)

/-- The `pageOrders.forEach` body of `reorderPages`: run one update, count it
when `result.changes > 0`. -/
def reorderStep (documentId : Nat) (acc : DB × Nat) (pu : PageOrderPair) : DB × Nat :=
  let (db', changes) := reorderOne documentId pu acc.1
  (db', if 0 < changes then acc.2 + 1 else acc.2)

/-- `DocumentPage.reorderPages`: inside one transaction, run the ownership-
scoped update for each pair, counting the pairs with `result.changes > 0`
(the trailing `documents.updated_at` touch is a timestamp, outside the model). -/
def reorderPages (documentId : Nat) (pageOrders : List PageOrderPair) (db : DB) :
    DB × Nat :=
  pageOrders.foldl (reorderStep documentId) (db, 0)

/-- The page/document join filter of `rebuildFTSIndex`: active page
(`status IS NULL OR status='active'`) of an active document, with
`ocr_text IS NOT NULL AND ocr_text != ''`. -/
def rebuildRowOf (db : DB) (dp : PageRow) : Option FtsRow :=
  match findDocument db dp.document_id with
  | some d =>
      if statusActive dp.status && (d.status == "active")
          && (dp.ocr_text != none) && (dp.ocr_text != some "") then
        some { page_id := dp.id, document_id := dp.document_id,
               project_id := d.project_id, document_title := d.title,
               page_text := (dp.ocr_text).getD "" }
      else none
  | none => none

/-- `Models.rebuildFTSIndex`: in one transaction, `DELETE FROM document_fts`,
re-scan the qualifying pages, bulk-insert one entry per page, and return the
processed count. -/
def rebuildFTSIndex (db : DB) : DB × Nat :=
  let rows := db.document_pages.filterMap (rebuildRowOf db)
  ({ db with document_fts := rows }, rows.length)

/-- The `ocr_text: ocrData?.text || null` field: JS `||` turns both a missing
OCR result and an empty recognized text into SQL `NULL`. -/
def ocrTextField (ocrData : Option OcrData) : Option String :=
  match ocrData with
  | some o => if o.text == "" then none else some o.text
  | none => none

/-- The `ocr_confidence: ocrData?.confidence || null` field (`0` is falsy in JS). -/
def ocrConfidenceField (ocrData : Option OcrData) : Option Nat :=
  match ocrData with
  | some o => if o.confidence == 0 then none else some o.confidence
  | none => none

/-- One element of the `pageRecords` array `processPDFPages` returns (the
fields its callers read; file path / size / thumbnail fields are filesystem
artifacts outside the model). -/
structure PageRecord where
  id : Nat
  page_number : Nat
  file_name : String
  source_type : String
  document_id : Nat
  ocr_text : Option String
  ocr_confidence : Option Nat
  word_count : Nat
deriving Repr, DecidableEq

/-- The `if (ocrData && ocrData.text)` statement of the loop: when OCR
produced truthy text, update the FTS index; the dereference
`documentInfo.project_id` throws (outer catch rethrows `Failed to process
PDF`) when `Document.findById` returned nothing. -/
def loopFtsStep (ocrData : Option OcrData) (documentInfo : Option DocumentRow)
    (pageId documentId : Nat) (db1 : DB) : Except String DB :=
  match ocrData with
  | some o =>
      if o.text == "" then Except.ok db1
      else
        match documentInfo with
        | some info =>
            Except.ok (updateFTSIndex pageId documentId info.project_id
              info.title (some o.text) db1)
        | none => Except.error "Failed to process PDF"
  | none => Except.ok db1

/-- The `for (let i = 0; i < conversionResults.length; i++)` loop of
`PDFService.processPDFPages`, recursing on the remaining page count with `i`
the current index.  The OCR engine is `ocr : Nat → Option OcrData` (`none` =
the engine threw; the JS try/catch leaves `ocrData = null` and only logs). -/
def processPagesLoop (origName : String) (documentId : Nat)
    (performOCRProcessing : Bool) (ocr : Nat → Option OcrData)
    (documentInfo : Option DocumentRow) (startingPageNumber : Nat) :
    Nat → Nat → DB → Except String (DB × List PageRecord)
  | 0, _, db => Except.ok (db, [])
  | count + 1, i, db =>
      let pageNumber := startingPageNumber + i
      let ocrData := if performOCRProcessing then ocr i else none
      let pageData : PageData :=
        { document_id := documentId, page_number := pageNumber,
          page_order := pageNumber,
          file_name := origName ++ " - Page " ++ toString pageNumber,
          source_file_name := origName,
          ocr_text := ocrTextField ocrData,
          ocr_confidence := ocrConfidenceField ocrData,
          ocr_language := if performOCRProcessing then some "eng" else none,
          word_count := (ocrData.map OcrData.wordCount).getD 0 }
      let (db1, pageId) := createPage db pageData
      loopFtsStep ocrData documentInfo pageId documentId db1 >>= fun db2 =>
        processPagesLoop origName documentId performOCRProcessing ocr documentInfo
            startingPageNumber count (i + 1) db2 >>= fun dr =>
          Except.ok (dr.1,
            { id := pageId, page_number := pageNumber,
              file_name := origName ++ " - Page " ++ toString pageNumber,
              source_type := "pdf", document_id := documentId,
              ocr_text := ocrTextField ocrData,
              ocr_confidence := ocrConfidenceField ocrData,
              word_count := (ocrData.map OcrData.wordCount).getD 0 } :: dr.2)

/-- `PDFService.processPDFPages`: reads `getNextPageNumber` once
(`startingPageNumber`), converts the PDF (`convert.bulk(-1)` yields `numPages`
images; the element bound at line 49 of the source is otherwise unused, so only
the count enters the model), reads the document info once, then runs the
per-page loop.  The final `fs.unlink` of the upload is a filesystem effect
outside the model. -/
def processPDFPages (origName : String) (documentId : Nat)
    (performOCRProcessing : Bool) (ocr : Nat → Option OcrData)
    (numPages : Nat) (db : DB) : Except String (DB × List PageRecord) :=
  let startingPageNumber := getNextPageNumber db documentId
  let documentInfo := findDocument db documentId
  processPagesLoop origName documentId performOCRProcessing ocr documentInfo
    startingPageNumber numPages 0 db

/-- The JSON object `POST /:documentId/pages` answers with on success (the
route's `res.json` literal has no `errors` key: an absent key is `none`;
`message` carries the `' with OCR'` suffix logic). -/
structure UploadResponse where
  success : Bool
  message : String
  pages : List PageRecord
  total_pages : Nat
  file_type : String
  document_id : Nat
  ocr_processed : Bool
  ocr_words_found : Nat
  has_ocr_text : Bool
  errors : Option (List String)
deriving Repr, DecidableEq

/-- The PDF branch of `router.post('/:documentId/pages')` in
`documentRoutes.js` (auth, project-access and multer file validation are out
of the specified core): verify the document exists and is active, process the
PDF, compute `hasOCRText`/`totalWords` from the returned records, increment
the page count by the batch size, set the OCR status when text was found, and
answer. -/
def uploadPdfPages (origName : String) (documentId : Nat)
    (performOCRProcessing : Bool) (ocr : Nat → Option OcrData) (numPages : Nat)
    (db : DB) : Except String (DB × UploadResponse) :=
  match findDocument db documentId with
  | none => Except.error "Document not found"
  | some existingDoc =>
      if existingDoc.status != "active" then Except.error "Document not found"
      else do
        let (db1, pageRecords) ←
          processPDFPages origName documentId performOCRProcessing ocr numPages db
        let hasOCRText := pageRecords.any (fun page =>
          match page.ocr_text with
          | some t => decide (0 < t.length)
          | none => false)
        let totalWords := pageRecords.foldl (fun sum page => sum + page.word_count) 0
        let db2 := incrementPageCount documentId pageRecords.length db1
        let db3 := if hasOCRText then updateOCRStatus documentId true "eng" db2 else db2
        Except.ok (db3,
          { success := true,
            message := "Successfully processed " ++ toString pageRecords.length
              ++ " page(s)" ++ (if performOCRProcessing then " with OCR" else ""),
            pages := pageRecords,
            total_pages := pageRecords.length,
            file_type := "pdf",
            document_id := documentId,
            ocr_processed := performOCRProcessing,
            ocr_words_found := totalWords,
            has_ocr_text := hasOCRText,
            errors := none })

/-- Substring occurrence, used to model SQLite FTS `MATCH`. -/
def occursIn (q s : String) : Bool :=
  2 ≤ (s.splitOn q).length

/-- `document_fts MATCH ?` modelled as occurrence of the query in one of the
row's text columns (tokenization, ranking and snippets of FTS5 are not
modelled; no settled claim depends on the precise match relation). -/
def ftsRowMatch (q : String) (r : FtsRow) : Bool :=
  occursIn q r.document_title || occursIn q r.page_text

/-- The access subqueries of `searchDocuments`: the project is reachable
through the user's role (`project_roles` joined with `users`) or through a
direct `user_project_access` grant. -/
def userAccessibleProject (db : DB) (userId projectId : Nat) : Bool :=
  db.project_roles.any (fun pr => pr.project_id == projectId &&
    db.users.any (fun u => u.id == userId && u.role_id == pr.role_id)) ||
  db.user_project_access.any (fun a => a.user_id == userId && a.project_id == projectId)

/-- One row of the `searchDocuments` SELECT (snippet and rank columns
omitted). -/
structure SearchHit where
  page_id : Nat
  document_id : Nat
  project_id : Nat
  document_title : String
  page_number : Nat
  file_name : String
  ocr_confidence : Option Nat
  word_count : Nat
  project_name : String
deriving Repr, DecidableEq

/-- Evaluation of the `searchDocuments` query for one `document_fts` row:
the three inner JOINs, the MATCH condition, the status filters, the optional
non-admin access filter and the optional project filter. -/
def searchRowHit (db : DB) (query : String) (projectId : Option Nat)
    (userId : Option Nat) (userPermissions : List String) (r : FtsRow) :
    Option SearchHit :=
  match db.document_pages.find? (fun dp => dp.id == r.page_id),
        findDocument db r.document_id,
        db.projects.find? (fun p => p.id == r.project_id) with
  | some dp, some d, some p =>
      if ftsRowMatch query r && (d.status == "active") && statusActive dp.status
          && (p.status == "active")
          && (if userPermissions.contains "admin_access" then true
              else
                match userId with
                | some uid => userAccessibleProject db uid r.project_id
                | none => true)
          && (match projectId with
              | some pid => r.project_id == pid
              | none => true) then
        some { page_id := r.page_id, document_id := r.document_id,
               project_id := r.project_id, document_title := r.document_title,
               page_number := dp.page_number, file_name := dp.file_name,
               ocr_confidence := dp.ocr_confidence, word_count := dp.word_count,
               project_name := p.name }
      else none
  | _, _, _ => none

/-- The `{results, total, has_more}` object `searchDocuments` builds.
`total` carries `totalCount.total`, a JS property read that yields
`undefined` (`none`) whenever the function returns at all — see
`searchDocuments`. -/
structure SearchResult where
  results : List SearchHit
  total : Option Nat
  has_more : Bool
deriving Repr, DecidableEq

/-- `Models.searchDocuments`.  The data query yields the matching rows (in
index order; `ORDER BY rank` is abstracted to that order), paginated by
`LIMIT ? OFFSET ?`.  The count query is built with
`searchQuery.replace(/SELECT.*?FROM/, 'SELECT COUNT(*) as total FROM')`:
without the `s` flag `.` cannot cross the template literal's newlines, and
the outer `SELECT`/`FROM` sit on different lines, so on the admin path the
replace is a no-op (on the non-admin path it instead rewrites the
single-line access-subquery header `SELECT pr.project_id FROM` — either way
the outer query keeps its data columns and never gains a `total` column).
The `ORDER BY.*$` replace does strip the final-line
`ORDER BY rank LIMIT ? OFFSET ?`, so `.get()` returns the first matching
data row.  When no row matches, `.get()` is `undefined` and
`totalCount.total` throws a TypeError; otherwise the row lacks a `total`
column, so `total` is `undefined` (`none`) and
`(offset + results.length) < undefined` is `false`. -/
def searchDocuments (query : String) (projectId : Option Nat)
    (userId : Option Nat) (userPermissions : List String) (limit offset : Nat)
    (db : DB) : Except String SearchResult :=
  let hits := db.document_fts.filterMap
    (searchRowHit db query projectId userId userPermissions)
  let results := (hits.drop offset).take limit
  match hits.head? with
  | none =>
      Except.error "TypeError: Cannot read properties of undefined (reading 'total')"
  | some _ => Except.ok { results := results, total := none, has_more := false }

/-- The validated request data the `GET /api/search` handler computes when the
minimum-length guard passes: `searchQuery = query.trim()`,
`searchLimit = Math.min(limit, 100)`, `searchOffset = offset`. -/
structure SearchRouteOk where
  searchQuery : String
  searchLimit : Nat
  searchOffset : Nat
deriving Repr, DecidableEq

/-- The guard of `searchRoutes.js`: `if (!query || query.trim().length < 2)`
answer 400 with a validation error (`query = none` models an absent `q`
parameter; `""` is falsy in JS). -/
def searchRouteGuard (q : Option String) (limit offset : Nat) :
    Except String SearchRouteOk :=
  let bad :=
    match q with
    | none => true
    | some s => s == "" || decide (s.trim.length < 2)
  if bad then Except.error "Search query must be at least 2 characters long"
  else
    Except.ok { searchQuery := (q.getD "").trim, searchLimit := min limit 100,
                searchOffset := offset }

/-- The `GET /api/search` handler shape: when the guard rejects, the handler
returns the 400 error and nothing further runs; when it passes, the rest of
the handler (`exec`, the Sequelize-backed search execution of
`searchRoutes.js` lines 36-220) runs on the validated data. -/
def searchRouteHandler {α : Type} (exec : SearchRouteOk → α) (q : Option String)
    (limit offset : Nat) : Except String α :=
  match searchRouteGuard q limit offset with
  | Except.error e => Except.error e
  | Except.ok v => Except.ok (exec v)

/-! ## Generic helper lemmas -/

theorem except_bind_ok {ε α β : Type} (x : Except ε α) (f : α → Except ε β) (b : β) :
    (x >>= f) = Except.ok b ↔ ∃ a, x = Except.ok a ∧ f a = Except.ok b := by
  cases x <;> simp [Bind.bind, Except.bind]

theorem string_length_pos_iff (s : String) : 0 < s.length ↔ s ≠ "" := by
  have h1 : s.length = s.data.length := rfl
  rw [h1, List.length_pos]
  constructor
  · intro h heq
    subst heq
    exact h rfl
  · intro h hd
    exact h (String.ext_iff.mpr hd)

theorem takeWhileAux_a :
    Substring.takeWhileAux "a" "a".endPos Char.isWhitespace { byteIdx := 0 }
      = { byteIdx := 0 } := by
  unfold Substring.takeWhileAux
  rw [dif_pos (by decide), if_neg (by decide)]

theorem takeRightWhileAux_a :
    Substring.takeRightWhileAux "a" { byteIdx := 0 } Char.isWhitespace "a".endPos
      = "a".endPos := by
  unfold Substring.takeRightWhileAux
  rw [dif_pos (by decide)]
  simp only []
  rw [if_pos (by decide)]

/-- `String.trim` does not reduce definitionally (well-founded recursion), so
its value on the concrete guard-boundary inputs is established by unfolding. -/
theorem trim_a : "a".trim = "a" := by
  show ("a".toSubstring.trim.toString) = "a"
  unfold Substring.trim
  simp only [String.toSubstring, takeWhileAux_a, takeRightWhileAux_a]
  rfl

theorem takeWhileAux_ab :
    Substring.takeWhileAux "ab" "ab".endPos Char.isWhitespace { byteIdx := 0 }
      = { byteIdx := 0 } := by
  unfold Substring.takeWhileAux
  rw [dif_pos (by decide), if_neg (by decide)]

theorem takeRightWhileAux_ab :
    Substring.takeRightWhileAux "ab" { byteIdx := 0 } Char.isWhitespace "ab".endPos
      = "ab".endPos := by
  unfold Substring.takeRightWhileAux
  rw [dif_pos (by decide)]
  simp only []
  rw [if_pos (by decide)]

theorem trim_ab : "ab".trim = "ab" := by
  show ("ab".toSubstring.trim.toString) = "ab"
  unfold Substring.trim
  simp only [String.toSubstring, takeWhileAux_ab, takeRightWhileAux_ab]
  rfl

theorem takeWhileAux_empty :
    Substring.takeWhileAux "" "".endPos Char.isWhitespace { byteIdx := 0 }
      = { byteIdx := 0 } := by
  unfold Substring.takeWhileAux
  rw [dif_neg (by decide)]

theorem takeRightWhileAux_empty :
    Substring.takeRightWhileAux "" { byteIdx := 0 } Char.isWhitespace "".endPos
      = "".endPos := by
  unfold Substring.takeRightWhileAux
  rw [dif_neg (by decide)]

theorem trim_empty : "".trim = "" := by
  show ("".toSubstring.trim.toString) = ""
  unfold Substring.trim
  simp only [String.toSubstring, takeWhileAux_empty, takeRightWhileAux_empty]
  rfl

theorem filter_length_pos_iff_any {α : Type} (l : List α) (f : α → Bool) :
    0 < (l.filter f).length ↔ l.any f = true := by
  induction l with
  | nil => simp
  | cons a t ih => by_cases h : f a <;> simp [h, ih]

theorem range_map_shift {α : Type} (f : Nat → α) (count : Nat) :
    (List.range (count + 1)).map f = f 0 :: (List.range count).map (fun j => f (j + 1)) := by
  rw [List.range_succ_eq_map, List.map_cons, List.map_map]
  rfl

theorem find?_map_of_id (f : Zapdm.DocumentRow → Zapdm.DocumentRow)
    (hf : ∀ d, (f d).id = d.id) (l : List Zapdm.DocumentRow) (i : Nat) :
    (l.map f).find? (fun d => d.id == i) = (l.find? (fun d => d.id == i)).map f := by
  induction l with
  | nil => rfl
  | cons a t ih =>
      by_cases h : a.id == i
      · simp [List.find?_cons, hf, h]
      · simp [List.find?_cons, hf, h, ih]

/-! ## Frame lemmas about the FTS maintenance operations -/

theorem ftsDeleteEntry_frame (pageId : Nat) (db : Zapdm.DB) :
    (Zapdm.ftsDeleteEntry pageId db).document_pages = db.document_pages
    ∧ (Zapdm.ftsDeleteEntry pageId db).documents = db.documents
    ∧ (Zapdm.ftsDeleteEntry pageId db).nextPageId = db.nextPageId := by
  exact ⟨rfl, rfl, rfl⟩

theorem updateFTSIndex_frame (pageId documentId projectId : Nat) (title : String)
    (ocrText : Option String) (db : Zapdm.DB) :
    (Zapdm.updateFTSIndex pageId documentId projectId title ocrText db).document_pages
        = db.document_pages
    ∧ (Zapdm.updateFTSIndex pageId documentId projectId title ocrText db).documents
        = db.documents
    ∧ (Zapdm.updateFTSIndex pageId documentId projectId title ocrText db).nextPageId
        = db.nextPageId := by
  unfold Zapdm.updateFTSIndex Zapdm.ftsDeleteEntry Zapdm.ftsInsertEntry
  cases ocrText with
  | none => exact ⟨rfl, rfl, rfl⟩
  | some t => by_cases h : 0 < t.trim.length <;> simp [h]

theorem loopFtsStep_ok_frame (ocrData : Option OcrData)
    (documentInfo : Option DocumentRow) (pageId documentId : Nat) (db1 db2 : DB)
    (h : loopFtsStep ocrData documentInfo pageId documentId db1 = Except.ok db2) :
    db2.document_pages = db1.document_pages ∧ db2.documents = db1.documents := by
  cases ocrData with
  | none =>
      simp only [loopFtsStep] at h
      cases h
      exact ⟨rfl, rfl⟩
  | some o =>
      simp only [loopFtsStep] at h
      by_cases ht : (o.text == "") = true
      · rw [if_pos ht] at h
        cases h
        exact ⟨rfl, rfl⟩
      · rw [if_neg ht] at h
        cases documentInfo with
        | some info =>
            simp only [Except.ok.injEq] at h
            subst h
            exact ⟨(updateFTSIndex_frame _ _ _ _ _ _).1,
              (updateFTSIndex_frame _ _ _ _ _ _).2.1⟩
        | none => cases h

/-- Characterization of the `processPDFPages` loop: on success, the documents
table is untouched, the persisted pages are the old ones plus one page per
iteration numbered `start + i + j`, and the returned records carry those
numbers and the per-page OCR outcome. -/
theorem processPagesLoop_spec (origName : String) (documentId : Nat)
    (performOCR : Bool) (ocr : Nat → Option OcrData)
    (documentInfo : Option DocumentRow) (start : Nat) :
    ∀ (count i : Nat) (db db' : DB) (recs : List PageRecord),
      processPagesLoop origName documentId performOCR ocr documentInfo start count i db
        = Except.ok (db', recs) →
      db'.documents = db.documents
      ∧ db'.document_pages.map PageRow.page_number
          = db.document_pages.map PageRow.page_number
            ++ (List.range count).map (fun j => start + i + j)
      ∧ recs.map PageRecord.page_number = (List.range count).map (fun j => start + i + j)
      ∧ recs.map PageRecord.ocr_text
          = (List.range count).map (fun j =>
              ocrTextField (if performOCR then ocr (i + j) else none)) := by
  intro count
  induction count with
  | zero =>
      intro i db db' recs h
      simp only [processPagesLoop] at h
      cases h
      simp
  | succ n ih =>
      intro i db db' recs h
      simp only [processPagesLoop, createPage] at h
      rw [except_bind_ok] at h
      obtain ⟨db2, hstep, h⟩ := h
      rw [except_bind_ok] at h
      obtain ⟨dr, hrec, h⟩ := h
      simp only [Except.ok.injEq, Prod.mk.injEq] at h
      obtain ⟨hdb', hrecs⟩ := h
      subst hdb' hrecs
      obtain ⟨hp2, hd2⟩ := loopFtsStep_ok_frame _ _ _ _ _ _ hstep
      have hkey : db2.document_pages.map PageRow.page_number
            = db.document_pages.map PageRow.page_number ++ [start + i]
          ∧ db2.documents = db.documents := by
        rw [hp2, hd2]
        exact ⟨by simp, rfl⟩
      obtain ⟨ihdocs, ihpages, ihrecs, ihocr⟩ := ih (i + 1) db2 dr.1 dr.2 hrec
      have hshift : (List.range (n + 1)).map (fun j => start + i + j)
          = (start + i) :: (List.range n).map (fun j => start + (i + 1) + j) := by
        rw [range_map_shift]
        refine congrArg₂ List.cons (by omega) ?_
        exact List.map_congr_left (fun j _ => by omega)
      have hshift2 : (List.range (n + 1)).map
            (fun j => ocrTextField (if performOCR then ocr (i + j) else none))
          = ocrTextField (if performOCR then ocr i else none)
            :: (List.range n).map
                (fun j => ocrTextField (if performOCR then ocr ((i + 1) + j) else none)) := by
        rw [range_map_shift]
        refine congrArg₂ List.cons (by simp) ?_
        refine List.map_congr_left (fun j _ => ?_)
        have hij : i + (j + 1) = (i + 1) + j := by omega
        rw [hij]
      refine ⟨?_, ?_, ?_, ?_⟩
      · rw [ihdocs, hkey.2]
      · rw [ihpages, hkey.1, hshift]
        simp
      · simp only [List.map_cons, ihrecs, hshift]
      · simp only [List.map_cons, ihocr, hshift2]

/-! ## Fixtures used by witnesses and counterexamples -/

/-- Fixture: an active document. -/
def docFix : DocumentRow :=
  { id := 1, project_id := 1, title := "Invoices", status := "active",
    total_pages := 1, has_ocr_text := true, ocr_language := some "eng" }

/-- Fixture: an active page of `docFix` carrying OCR text. -/
def pageFix : PageRow :=
  { id := 1, document_id := 1, page_number := 1, page_order := 1,
    file_name := "scan.pdf - Page 1", source_file_name := "scan.pdf",
    status := some "active", ocr_text := some "hello world",
    ocr_confidence := some 90, ocr_language := some "eng", word_count := 2 }

/-- Fixture: the index entry of `pageFix`. -/
def ftsFix : FtsRow :=
  { page_id := 1, document_id := 1, project_id := 1,
    document_title := "Invoices", page_text := "hello world" }

/-- Fixture: an active project. -/
def projFix : ProjectRow := { id := 1, name := "Main", status := "active" }

/-- Fixture: a database holding `docFix`, `pageFix`, `ftsFix`, `projFix`. -/
def dbFix : DB :=
  { documents := [docFix], document_pages := [pageFix], document_fts := [ftsFix],
    projects := [projFix], users := [], project_roles := [],
    user_project_access := [], nextPageId := 2 }

/-! ## Claim C1 -/

/-- Claim C1: for a single-batch PDF ingestion that splits the file into `k`
pages, the starting number `N = getNextPageNumber` is read from the pre-batch
state once, and the persisted pages (and returned records) carry page numbers
exactly `N, N+1, ..., N+k-1` in rasterized order — appended after the
pre-existing pages, with no gaps, repeats, or re-query between inserts. -/
theorem claim_C1_contiguous_page_numbers (origName : String) (documentId : Nat)
    (performOCR : Bool) (ocr : Nat → Option OcrData) (numPages : Nat)
    (db db' : DB) (recs : List PageRecord)
    (h : processPDFPages origName documentId performOCR ocr numPages db
      = Except.ok (db', recs)) :
    db'.document_pages.map PageRow.page_number
      = db.document_pages.map PageRow.page_number
        ++ (List.range numPages).map (fun i => getNextPageNumber db documentId + i)
    ∧ recs.map PageRecord.page_number
      = (List.range numPages).map (fun i => getNextPageNumber db documentId + i) := by
  simp only [processPDFPages] at h
  obtain ⟨-, hpages, hrecs, -⟩ := processPagesLoop_spec origName documentId
    performOCR ocr (findDocument db documentId) (getNextPageNumber db documentId)
    numPages 0 db db' recs h
  constructor
  · rw [hpages]
    simp only [Nat.add_zero]
  · rw [hrecs]
    simp only [Nat.add_zero]

/-- Database state after the concrete two-page ingestion used to witness C1. -/
def c1DbAfter : DB :=
  match processPDFPages "scan.pdf" 1 false (fun _ => none) 2 dbFix with
  | Except.ok x => x.1
  | Except.error _ => dbFix

/-- Page records returned by the concrete two-page ingestion used to witness C1. -/
def c1Recs : List PageRecord :=
  match processPDFPages "scan.pdf" 1 false (fun _ => none) 2 dbFix with
  | Except.ok x => x.2
  | Except.error _ => []

/-- Witness for C1: a concrete two-page ingestion into `dbFix`. -/
theorem claim_C1_contiguous_page_numbers_witness :
    c1DbAfter.document_pages.map PageRow.page_number
      = dbFix.document_pages.map PageRow.page_number
        ++ (List.range 2).map (fun i => getNextPageNumber dbFix 1 + i)
    ∧ c1Recs.map PageRecord.page_number
      = (List.range 2).map (fun i => getNextPageNumber dbFix 1 + i) :=
  claim_C1_contiguous_page_numbers "scan.pdf" 1 false (fun _ => none) 2 dbFix
    c1DbAfter c1Recs (by rfl)

/-! ## Claim C5 -/

/-- Claim C5: `updateFTSIndex` first deletes any entry keyed by the page id
(other entries are kept in place), then inserts a fresh entry iff the supplied
text is non-empty after trimming; empty or whitespace-only OCR text never
produces an index entry. -/
theorem claim_C5_fts_upsert (pageId documentId projectId : Nat)
    (documentTitle : String) (ocrText : Option String) (db : DB) :
    (updateFTSIndex pageId documentId projectId documentTitle ocrText db).document_fts
      = db.document_fts.filter (fun r => r.page_id != pageId)
        ++ (match ocrText with
            | some t =>
                if 0 < t.trim.length then
                  [{ page_id := pageId, document_id := documentId,
                     project_id := projectId, document_title := documentTitle,
                     page_text := t }]
                else []
            | none => [])
    ∧ ((∃ r ∈ (updateFTSIndex pageId documentId projectId documentTitle ocrText
            db).document_fts, r.page_id = pageId)
        ↔ ∃ t, ocrText = some t ∧ t.trim ≠ "") := by
  have hfts : (updateFTSIndex pageId documentId projectId documentTitle ocrText
        db).document_fts
      = db.document_fts.filter (fun r => r.page_id != pageId)
        ++ (match ocrText with
            | some t =>
                if 0 < t.trim.length then
                  [{ page_id := pageId, document_id := documentId,
                     project_id := projectId, document_title := documentTitle,
                     page_text := t }]
                else []
            | none => []) := by
    unfold updateFTSIndex ftsDeleteEntry ftsInsertEntry
    cases ocrText with
    | none => simp
    | some t => by_cases h : 0 < t.trim.length <;> simp [h]
  refine ⟨hfts, ?_⟩
  rw [hfts]
  constructor
  · rintro ⟨r, hr, hpid⟩
    rcases List.mem_append.mp hr with hl | hrt
    · have hne := (List.mem_filter.mp hl).2
      rw [bne_iff_ne] at hne
      exact absurd hpid hne
    · cases ocrText with
      | none => simp at hrt
      | some t =>
          by_cases h : 0 < t.trim.length
          · refine ⟨t, rfl, fun hemp => ?_⟩
            rw [hemp] at h
            exact absurd h (by decide)
          · simp [h] at hrt
  · rintro ⟨t, rfl, htne⟩
    have hlen : 0 < t.trim.length := (string_length_pos_iff _).mpr htne
    refine ⟨{ page_id := pageId, document_id := documentId, project_id := projectId,
              document_title := documentTitle, page_text := t },
            List.mem_append.mpr (Or.inr ?_), rfl⟩
    simp [hlen]

/-- Witness for C5: upserting whitespace-only text into `dbFix`. -/
theorem claim_C5_fts_upsert_witness :
    (updateFTSIndex 1 1 1 "Invoices" (some "  ") dbFix).document_fts
      = dbFix.document_fts.filter (fun r => r.page_id != 1)
        ++ (match (some "  " : Option String) with
            | some t =>
                if 0 < t.trim.length then
                  [{ page_id := 1, document_id := 1, project_id := 1,
                     document_title := "Invoices", page_text := t }]
                else []
            | none => [])
    ∧ ((∃ r ∈ (updateFTSIndex 1 1 1 "Invoices" (some "  ") dbFix).document_fts,
          r.page_id = 1)
        ↔ ∃ t, (some "  " : Option String) = some t ∧ t.trim ≠ "") :=
  claim_C5_fts_upsert 1 1 1 "Invoices" (some "  ") dbFix

/-! ## Claim C9 -/

/-- Claim C9: `updateFTSIndex` never propagates an exception: whatever database
errors the delete or insert statement raises, the caught version returns
normally (the index is simply left as reached); and with no failures it
returns the happy-path result. -/
theorem claim_C9_fts_errors_swallowed (failDelete failInsert : Bool)
    (pageId documentId projectId : Nat) (documentTitle : String)
    (ocrText : Option String) (db : DB) :
    (∃ db2, updateFTSIndexCaught failDelete failInsert pageId documentId
        projectId documentTitle ocrText db = Except.ok db2)
    ∧ updateFTSIndexCaught false false pageId documentId projectId documentTitle
        ocrText db
      = Except.ok (updateFTSIndex pageId documentId projectId documentTitle
          ocrText db) := by
  constructor
  · unfold updateFTSIndexCaught
    cases h : updateFTSIndexSteps failDelete failInsert pageId documentId
        projectId documentTitle ocrText db with
    | ok d => exact ⟨d, rfl⟩
    | error e => exact ⟨e.2, rfl⟩
  · unfold updateFTSIndexCaught updateFTSIndexSteps updateFTSIndex
    cases ocrText with
    | none => rfl
    | some t =>
        by_cases h : 0 < t.trim.length
        · simp only [if_pos h]
          rfl
        · simp only [if_neg h]
          rfl

/-! ## Claim C2 -/

theorem findDocument_total_pages_map (db : DB) (docId targetId n : Nat) :
    (((db.documents.map (fun d =>
          if d.id == targetId then { d with total_pages := n } else d)).find?
        (fun d => d.id == docId)).map DocumentRow.has_ocr_text)
      = (db.documents.find? (fun d => d.id == docId)).map DocumentRow.has_ocr_text := by
  rw [find?_map_of_id
    (fun d => if d.id == targetId then { d with total_pages := n } else d)
    (fun d => by by_cases h : d.id = targetId <;> simp [h])]
  cases db.documents.find? (fun d => d.id == docId) with
  | none => rfl
  | some d =>
      by_cases h : d.id = targetId <;> simp [h]

theorem findDocument_updateOCRStatus (db : DB) (documentId : Nat) (b : Bool)
    (lang : String) (hex : (findDocument db documentId).isSome) :
    (findDocument (updateOCRStatus documentId b lang db) documentId).map
        DocumentRow.has_ocr_text = some b := by
  unfold updateOCRStatus findDocument
  rw [find?_map_of_id
    (fun d => if d.id == documentId then
        { d with has_ocr_text := b, ocr_language := some lang } else d)
    (fun d => by by_cases h : d.id = documentId <;> simp [h])]
  unfold findDocument at hex
  cases hf : db.documents.find? (fun d => d.id == documentId) with
  | none => rw [hf] at hex; cases hex
  | some d =>
      have hid : d.id = documentId := by simpa using List.find?_some hf
      simp [hid]

/-- Database state after soft-deleting the only OCR-carrying page of `dbFix`. -/
def c2DbAfter : DB :=
  match softDeletePage 1 dbFix with
  | Except.ok x => x.1
  | Except.error _ => dbFix

/-- Counterexample to claim C2: in `dbFix` the document's `has_ocr_text` is
true and page 1 is its only page with OCR text; soft-deleting that page leaves
the flag true even though no active child page carries OCR text any more —
refuting the claimed iff (and, in particular, the claim that soft-deleting the
only OCR page makes the flag false). -/
theorem claim_C2_counterexample :
    softDeletePage 1 dbFix = Except.ok (c2DbAfter, 1, 0)
    ∧ (findDocument c2DbAfter 1).map DocumentRow.has_ocr_text = some true
    ∧ docHasActiveOcrText c2DbAfter 1 = false :=
  ⟨by rfl, by rfl, by rfl⟩

/-- Claim C2 (amended): the `has_ocr_text` flag is monotone, not an iff:
`softDeletePage` never touches any document's `has_ocr_text` (so soft-deleting
the only page with OCR text leaves the flag true), while a completed ingestion
whose response reports `has_ocr_text` sets the parent document's flag to
true. -/
theorem claim_C2_amended_flag_monotone :
    (∀ (db : DB) (pageId : Nat) (out : DB × Nat × Nat),
        softDeletePage pageId db = Except.ok out →
        ∀ documentId, (findDocument out.1 documentId).map DocumentRow.has_ocr_text
          = (findDocument db documentId).map DocumentRow.has_ocr_text)
    ∧ (∀ (origName : String) (documentId : Nat) (performOCR : Bool)
        (ocr : Nat → Option OcrData) (numPages : Nat) (db db' : DB)
        (resp : UploadResponse),
        uploadPdfPages origName documentId performOCR ocr numPages db
          = Except.ok (db', resp) →
        resp.has_ocr_text = true →
        (findDocument db' documentId).map DocumentRow.has_ocr_text = some true) := by
  constructor
  · intro db pageId out h documentId
    unfold softDeletePage at h
    cases hfp : findPage db pageId with
    | none => rw [hfp] at h; cases h
    | some page =>
        rw [hfp] at h
        simp only [Except.ok.injEq] at h
        subst h
        exact findDocument_total_pages_map
          { db with document_pages := db.document_pages.map (fun p =>
              if p.id == pageId then { p with status := some "inactive" } else p) }
          documentId page.document_id _
  · intro origName documentId performOCR ocr numPages db db' resp h hflag
    unfold uploadPdfPages at h
    split at h
    · cases h
    · rename_i existingDoc hfd
      split at h
      · cases h
      · rw [except_bind_ok] at h
        obtain ⟨pr, hproc, h⟩ := h
        obtain ⟨db1, recs⟩ := pr
        simp only [Except.ok.injEq, Prod.mk.injEq] at h
        obtain ⟨hdb', hresp⟩ := h
        subst hdb'
        subst hresp
        simp only at hflag
        rw [if_pos hflag]
        simp only [processPDFPages] at hproc
        obtain ⟨hdocs, -, -, -⟩ := processPagesLoop_spec origName documentId
          performOCR ocr (findDocument db documentId)
          (getNextPageNumber db documentId) numPages 0 db db1 recs hproc
        refine findDocument_updateOCRStatus _ documentId true "eng" ?_
        unfold incrementPageCount findDocument
        rw [find?_map_of_id
          (fun d => if d.id == documentId then
              { d with total_pages := d.total_pages + recs.length } else d)
          (fun d => by by_cases hid : d.id = documentId <;> simp [hid])]
        unfold findDocument at hfd
        rw [hdocs, hfd]
        rfl

/-- Witness for the amended C2: soft-deleting page 1 of `dbFix` preserves the
document's flag. -/
theorem claim_C2_amended_flag_monotone_witness :
    (findDocument c2DbAfter 1).map DocumentRow.has_ocr_text
      = (findDocument dbFix 1).map DocumentRow.has_ocr_text :=
  claim_C2_amended_flag_monotone.1 dbFix 1 (c2DbAfter, 1, 0) (by rfl) 1

/-! ## Claim C3 -/

/-- OCR engine fixture for C3: the second page (index 1) throws, the others
recognize "hello". -/
def c3Ocr : Nat → Option OcrData := fun i =>
  if i == 1 then none else some { text := "hello", confidence := 90, wordCount := 1 }

/-- Fixture: `docFix` before any page was ingested. -/
def docFixEmpty : DocumentRow :=
  { docFix with total_pages := 0, has_ocr_text := false, ocr_language := none }

/-- Fixture: a database holding only `docFixEmpty` and `projFix`. -/
def dbFixEmpty : DB :=
  { documents := [docFixEmpty],
    document_pages := [], document_fts := [], projects := [projFix], users := [],
    project_roles := [], user_project_access := [], nextPageId := 1 }

/-- Response of the concrete 3-page upload with OCR failing on page 2. -/
def c3Resp : UploadResponse :=
  match uploadPdfPages "scan.pdf" 1 true c3Ocr 3 dbFixEmpty with
  | Except.ok x => x.2
  | Except.error _ =>
      { success := false, message := "", pages := [], total_pages := 0,
        file_type := "", document_id := 0, ocr_processed := false,
        ocr_words_found := 0, has_ocr_text := false, errors := none }

/-- Counterexample to claim C3: for a 3-page upload with OCR where page 2's
OCR throws, all 3 pages are persisted (page 2 with null OCR text) and the
upload reports success with `has_ocr_text`, but the response JSON carries no
`errors` key at all — so no errors list mentioning the failed page exists. -/
theorem claim_C3_counterexample :
    c3Resp.total_pages = 3
    ∧ c3Resp.pages.map PageRecord.ocr_text = [some "hello", none, some "hello"]
    ∧ c3Resp.success = true
    ∧ c3Resp.has_ocr_text = true
    ∧ c3Resp.errors = none :=
  ⟨by rfl, by rfl, by rfl, by rfl, by rfl⟩

/-- Claim C3 (amended): when OCR throws for some pages of a multi-page upload
but recognizes non-empty text for at least one page, all pages are persisted
(failed pages with null OCR fields), the upload reports success with
`has_ocr_text` true — but the upload response contains no errors list (the
per-page OCR failure is only logged; only the separate batch re-OCR endpoint
returns an `errors` array). -/
theorem claim_C3_amended_partial_ocr (origName : String) (documentId : Nat)
    (ocr : Nat → Option OcrData) (numPages : Nat) (db db' : DB)
    (resp : UploadResponse)
    (h : uploadPdfPages origName documentId true ocr numPages db
      = Except.ok (db', resp))
    (j : Nat) (hj : j < numPages) (o : OcrData) (hoj : ocr j = some o)
    (hne : o.text ≠ "") :
    resp.success = true
    ∧ resp.total_pages = numPages
    ∧ resp.pages.map PageRecord.ocr_text
        = (List.range numPages).map (fun i => ocrTextField (ocr i))
    ∧ resp.has_ocr_text = true
    ∧ resp.errors = none := by
  unfold uploadPdfPages at h
  split at h
  · cases h
  · split at h
    · cases h
    · rw [except_bind_ok] at h
      obtain ⟨pr, hproc, h⟩ := h
      obtain ⟨db1, recs⟩ := pr
      simp only [Except.ok.injEq, Prod.mk.injEq] at h
      obtain ⟨hdb', hresp⟩ := h
      subst hdb'
      subst hresp
      simp only [processPDFPages] at hproc
      obtain ⟨-, -, hnums, hocr⟩ := processPagesLoop_spec origName documentId
        true ocr (findDocument db documentId)
        (getNextPageNumber db documentId) numPages 0 db db1 recs hproc
      have hlen : recs.length = numPages := by
        have := congrArg List.length hnums
        simpa using this
      have hocr' : recs.map PageRecord.ocr_text
          = (List.range numPages).map (fun i => ocrTextField (ocr i)) := by
        rw [hocr]
        simp
      have hany : (recs.any (fun page =>
          match page.ocr_text with
          | some t => decide (0 < t.length)
          | none => false)) = true := by
        have hget : (recs.map PageRecord.ocr_text)[j]? = some (some o.text) := by
          rw [hocr', List.getElem?_map, List.getElem?_range hj]
          simp [hoj, ocrTextField, hne]
        rw [List.getElem?_map] at hget
        cases hrj : recs[j]? with
        | none => rw [hrj] at hget; cases hget
        | some page =>
            rw [hrj] at hget
            simp at hget
            refine List.any_eq_true.mpr ⟨page, List.getElem?_mem hrj, ?_⟩
            rw [hget]
            exact decide_eq_true ((string_length_pos_iff _).mpr hne)
      exact ⟨rfl, hlen, hocr', hany, rfl⟩

/-- Database state after the concrete 3-page upload used by the C3 witness. -/
def c3DbAfter : DB :=
  match uploadPdfPages "scan.pdf" 1 true c3Ocr 3 dbFixEmpty with
  | Except.ok x => x.1
  | Except.error _ => dbFixEmpty

/-- Witness for the amended C3: the concrete 3-page upload with OCR failing on
page 2 only. -/
theorem claim_C3_amended_partial_ocr_witness :
    c3Resp.success = true
    ∧ c3Resp.total_pages = 3
    ∧ c3Resp.pages.map PageRecord.ocr_text
        = (List.range 3).map (fun i => ocrTextField (c3Ocr i))
    ∧ c3Resp.has_ocr_text = true
    ∧ c3Resp.errors = none :=
  claim_C3_amended_partial_ocr "scan.pdf" 1 c3Ocr 3 dbFixEmpty c3DbAfter c3Resp
    (by rfl) 0 (by decide)
    { text := "hello", confidence := 90, wordCount := 1 } (by rfl) (by decide)

/-! ## Claim C4 -/

/-- Claim C4 (code bug at the search step): soft-deleting page 1 of `dbFix`
behaves exactly as claimed — the page becomes inactive, its index entry is
removed (leaving the index empty), the parent document's `total_pages` is set
to the recomputed count of remaining active pages (0), and
`{document_id, remaining_pages}` is returned — but the subsequent search for
"hello", a term that occurred only in the deleted page's text and now matches
no index entry, throws a TypeError instead of returning zero results: the
count query's `SELECT.*?FROM` rewrite never matches across the query string's
newlines, so `searchDocuments` reads `.total` off `.get()`'s first data row,
which is `undefined` when nothing matches. -/
theorem claim_C4_soft_delete_search_bug :
    softDeletePage 1 dbFix = Except.ok (c2DbAfter, 1, 0)
    ∧ (findPage c2DbAfter 1).map PageRow.status = some (some "inactive")
    ∧ c2DbAfter.document_fts = []
    ∧ (findDocument c2DbAfter 1).map DocumentRow.total_pages = some 0
    ∧ (activePagesOf c2DbAfter 1).length = 0
    ∧ searchDocuments "hello" none none ["admin_access"] 50 0 c2DbAfter
        = Except.error
            "TypeError: Cannot read properties of undefined (reading 'total')" :=
  ⟨by rfl, by rfl, by rfl, by rfl, by rfl, by rfl⟩

/-! ## Claim C6 -/

theorem filterMap_rebuildRow_map_id (db : DB) :
    ∀ l : List PageRow,
      (l.filterMap (rebuildRowOf db)).map FtsRow.page_id
        = (l.filter (fun dp => statusActive dp.status
            && (match findDocument db dp.document_id with
                | some d => d.status == "active"
                | none => false)
            && (dp.ocr_text != none) && (dp.ocr_text != some ""))).map PageRow.id := by
  intro l
  induction l with
  | nil => rfl
  | cons dp t ih =>
      simp only [List.filterMap_cons, List.filter_cons]
      cases hfd : findDocument db dp.document_id with
      | none =>
          simp only [rebuildRowOf, hfd]
          simpa using ih
      | some d =>
          by_cases hc : (statusActive dp.status && (d.status == "active")
              && (dp.ocr_text != none) && (dp.ocr_text != some "")) = true
          · simp only [rebuildRowOf, hfd, hc, if_true, List.map_cons]
            rw [ih]
          · simp only [rebuildRowOf, hfd, hc, if_false]
            simpa [hc] using ih

/-- Claim C6: `rebuildFTSIndex` replaces the entire index with exactly one
entry per active page with non-empty `ocr_text` whose parent document is
active, returns the inserted count, and a second run with no intervening
writes produces the identical result (in particular the same row count). -/
theorem claim_C6_rebuild_exact_and_idempotent (db : DB) :
    (rebuildFTSIndex db).1.document_fts.map FtsRow.page_id
      = (db.document_pages.filter (fun dp => statusActive dp.status
          && (match findDocument db dp.document_id with
              | some d => d.status == "active"
              | none => false)
          && (dp.ocr_text != none) && (dp.ocr_text != some ""))).map PageRow.id
    ∧ (rebuildFTSIndex db).2 = (rebuildFTSIndex db).1.document_fts.length
    ∧ rebuildFTSIndex (rebuildFTSIndex db).1 = rebuildFTSIndex db := by
  refine ⟨filterMap_rebuildRow_map_id db db.document_pages, rfl, rfl⟩

/-! ## Claim C7 -/

theorem reorderOne_ids (documentId : Nat) (pu : PageOrderPair) (db : DB) :
    ((reorderOne documentId pu db).1.document_pages).map (fun p => (p.id, p.document_id))
      = db.document_pages.map (fun p => (p.id, p.document_id)) := by
  unfold reorderOne
  simp only [List.map_map]
  exact List.map_congr_left (fun p _ => by
    by_cases h : (p.id == pu.page_id && p.document_id == documentId) = true <;>
      simp [h, Function.comp])

theorem any_id_doc_eq_of_pairs_eq (l l' : List PageRow)
    (h : l.map (fun p => (p.id, p.document_id)) = l'.map (fun p => (p.id, p.document_id)))
    (a b : Nat) :
    l.any (fun p => p.id == a && p.document_id == b)
      = l'.any (fun p => p.id == a && p.document_id == b) := by
  have key : ∀ m : List PageRow,
      m.any (fun p => p.id == a && p.document_id == b)
        = (m.map (fun p => (p.id, p.document_id))).any (fun q => q.1 == a && q.2 == b) := by
    intro m
    induction m with
    | nil => rfl
    | cons x t ihm => simp only [List.any_cons, List.map_cons, ihm]
  rw [key, key, h]

theorem reorderOne_any (documentId : Nat) (pu : PageOrderPair) (db : DB) (a b : Nat) :
    (reorderOne documentId pu db).1.document_pages.any
        (fun p => p.id == a && p.document_id == b)
      = db.document_pages.any (fun p => p.id == a && p.document_id == b) :=
  any_id_doc_eq_of_pairs_eq _ _ (reorderOne_ids documentId pu db) a b

theorem reorderFold_shift (documentId : Nat) :
    ∀ (pairs : List PageOrderPair) (db : DB) (c : Nat),
      pairs.foldl (reorderStep documentId) (db, c)
        = ((pairs.foldl (reorderStep documentId) (db, 0)).1,
           c + (pairs.foldl (reorderStep documentId) (db, 0)).2) := by
  intro pairs
  induction pairs with
  | nil =>
      intro db c
      simp
  | cons pu pus ih =>
      intro db c
      simp only [List.foldl_cons]
      have hstep : ∀ c' : Nat, reorderStep documentId (db, c') pu
          = ((reorderOne documentId pu db).1,
             if 0 < (reorderOne documentId pu db).2 then c' + 1 else c') := by
        intro c'
        simp [reorderStep]
      rw [hstep c, hstep 0,
        ih (reorderOne documentId pu db).1
          (if 0 < (reorderOne documentId pu db).2 then c + 1 else c),
        ih (reorderOne documentId pu db).1
          (if 0 < (reorderOne documentId pu db).2 then 0 + 1 else 0)]
      by_cases h : 0 < (reorderOne documentId pu db).2 <;>
        simp [h, Prod.ext_iff] <;> omega

theorem reorderPages_count (documentId : Nat) :
    ∀ (pairs : List PageOrderPair) (db : DB),
      (reorderPages documentId pairs db).2
        = (pairs.filter (fun pu => db.document_pages.any
            (fun p => p.id == pu.page_id && p.document_id == documentId))).length := by
  intro pairs
  induction pairs with
  | nil => intro db; rfl
  | cons pu pus ih =>
      intro db
      unfold reorderPages at ih ⊢
      simp only [List.foldl_cons]
      have hstep : reorderStep documentId (db, 0) pu
          = ((reorderOne documentId pu db).1,
             if 0 < (reorderOne documentId pu db).2 then 1 else 0) := by
        simp [reorderStep]
      rw [hstep, reorderFold_shift]
      have hcond : ∀ pu' : PageOrderPair,
          (reorderOne documentId pu db).1.document_pages.any
              (fun p => p.id == pu'.page_id && p.document_id == documentId)
            = db.document_pages.any
              (fun p => p.id == pu'.page_id && p.document_id == documentId) :=
        fun pu' => reorderOne_any documentId pu db pu'.page_id documentId
      have hfilter : pus.filter (fun pu' =>
            (reorderOne documentId pu db).1.document_pages.any
              (fun p => p.id == pu'.page_id && p.document_id == documentId))
          = pus.filter (fun pu' => db.document_pages.any
              (fun p => p.id == pu'.page_id && p.document_id == documentId)) :=
        List.filter_congr (fun pu' _ => hcond pu')
      have hchanges : (0 < (reorderOne documentId pu db).2)
      ↔ db.document_pages.any
            (fun p => p.id == pu.page_id && p.document_id == documentId) = true := by
        unfold reorderOne
        dsimp only
        exact filter_length_pos_iff_any _ _
      dsimp only
      rw [List.filter_cons]
      by_cases hc : db.document_pages.any
          (fun p => p.id == pu.page_id && p.document_id == documentId) = true
      · rw [if_pos (hchanges.mpr hc), if_pos hc]
        simp only [List.length_cons]
        rw [ih (reorderOne documentId pu db).1, hfilter]
        omega
      · have hnlt : ¬ 0 < (reorderOne documentId pu db).2 :=
          fun hlt => hc (hchanges.mp hlt)
        rw [if_neg hnlt, if_neg hc]
        simp only [Nat.zero_add]
        rw [ih (reorderOne documentId pu db).1, hfilter]

theorem reorderOne_frame (documentId : Nat) (pu : PageOrderPair) (db : DB)
    (i : Nat) (p : PageRow) (hp : db.document_pages[i]? = some p)
    (hne : p.document_id ≠ documentId) :
    (reorderOne documentId pu db).1.document_pages[i]? = some p := by
  unfold reorderOne
  simp only [List.getElem?_map, hp, Option.map_some']
  have : (p.id == pu.page_id && p.document_id == documentId) = false := by
    simp [hne]
  rw [this]
  rfl

theorem reorderFold_frame (documentId : Nat) :
    ∀ (pairs : List PageOrderPair) (db : DB) (c : Nat) (i : Nat) (p : PageRow),
      db.document_pages[i]? = some p → p.document_id ≠ documentId →
      (pairs.foldl (reorderStep documentId) (db, c)).1.document_pages[i]? = some p := by
  intro pairs
  induction pairs with
  | nil => intro db c i p hp _; exact hp
  | cons pu pus ih =>
      intro db c i p hp hne
      simp only [List.foldl_cons]
      have hstep : ∀ c' : Nat, reorderStep documentId (db, c') pu
          = ((reorderOne documentId pu db).1,
             if 0 < (reorderOne documentId pu db).2 then c' + 1 else c') := by
        intro c'
        simp [reorderStep]
      rw [hstep c]
      exact ih (reorderOne documentId pu db).1 _ i p
        (reorderOne_frame documentId pu db i p hp hne) hne

/-- Claim C7: `reorderPages` scopes ownership through the update predicate:
a pair whose page does not belong to the target document changes nothing (the
page keeps its whole row, in place), the call never errors because of such a
pair, and the returned count equals the number of pairs whose page belongs to
the document. -/
theorem claim_C7_reorder_ownership (db : DB) (documentId : Nat)
    (pairs : List PageOrderPair) :
    (∀ (i : Nat) (p : PageRow), db.document_pages[i]? = some p →
        p.document_id ≠ documentId →
        (reorderPages documentId pairs db).1.document_pages[i]? = some p)
    ∧ (reorderPages documentId pairs db).2
        = (pairs.filter (fun pu => db.document_pages.any
            (fun p => p.id == pu.page_id && p.document_id == documentId))).length :=
  ⟨fun i p hp hne => reorderFold_frame documentId pairs db 0 i p hp hne,
   reorderPages_count documentId pairs db⟩

/-- Witness for C7: reordering `dbFix` (whose only page belongs to document 1)
with one owned pair and one foreign pair. -/
theorem claim_C7_reorder_ownership_witness :
    (∀ (i : Nat) (p : PageRow), dbFix.document_pages[i]? = some p →
        p.document_id ≠ 1 →
        (reorderPages 1 [{ page_id := 1, new_page_number := 5 },
            { page_id := 99, new_page_number := 7 }] dbFix).1.document_pages[i]?
          = some p)
    ∧ (reorderPages 1 [{ page_id := 1, new_page_number := 5 },
          { page_id := 99, new_page_number := 7 }] dbFix).2
        = (([{ page_id := 1, new_page_number := 5 },
             { page_id := 99, new_page_number := 7 }] : List PageOrderPair).filter
            (fun pu => dbFix.document_pages.any
              (fun p => p.id == pu.page_id && p.document_id == 1))).length :=
  claim_C7_reorder_ownership dbFix 1
    [{ page_id := 1, new_page_number := 5 }, { page_id := 99, new_page_number := 7 }]

/-! ## Claim C8 -/

/-- Claim C8: the search route rejects a missing query and any query whose
trimmed text has fewer than 2 characters with a caller-visible validation
error — nothing further runs — while a query whose trimmed text has exactly 2
characters passes the guard and the search executes on the validated data. -/
theorem claim_C8_min_length_guard {α : Type} (exec : SearchRouteOk → α)
    (limit offset : Nat) :
    (searchRouteHandler exec none limit offset
        = Except.error "Search query must be at least 2 characters long")
    ∧ (∀ s : String, s.trim.length < 2 →
        searchRouteHandler exec (some s) limit offset
          = Except.error "Search query must be at least 2 characters long")
    ∧ (∀ s : String, s.trim.length = 2 →
        searchRouteHandler exec (some s) limit offset
          = Except.ok (exec { searchQuery := s.trim,
                              searchLimit := min limit 100,
                              searchOffset := offset })) := by
  refine ⟨rfl, ?_, ?_⟩
  · intro s h
    unfold searchRouteHandler searchRouteGuard
    dsimp only
    have hbad : (s == "" || decide (s.trim.length < 2)) = true := by
      simp [h]
    rw [hbad]
    rfl
  · intro s h
    have h1 : (s == "") = false := by
      by_cases hs : s = ""
      · subst hs
        rw [trim_empty] at h
        exact absurd h (by decide)
      · simpa using hs
    have h2 : decide (s.trim.length < 2) = false := by
      simp [h]
    unfold searchRouteHandler searchRouteGuard
    dsimp only
    rw [h1, h2]
    rfl

/-- Witness for C8: query "a" is rejected, query "ab" is accepted and the
execution continuation runs on the validated data. -/
theorem claim_C8_min_length_guard_witness :
    (searchRouteHandler (fun v => v) (some "a") 20 0
        = Except.error "Search query must be at least 2 characters long")
    ∧ (searchRouteHandler (fun v => v) (some "ab") 20 0
        = Except.ok { searchQuery := "ab", searchLimit := 20, searchOffset := 0 }) := by
  constructor
  · exact (claim_C8_min_length_guard (fun v => v) 20 0).2.1 "a"
      (by rw [trim_a]; decide)
  · have h := (claim_C8_min_length_guard (fun v => v) 20 0).2.2 "ab"
      (by rw [trim_ab]; decide)
    rw [trim_ab] at h
    exact h

/-! ## Claim C10 -/

theorem foldl_max_le (m : Nat) :
    ∀ (l : List PageRow) (a : Nat), a ≤ m → (∀ p ∈ l, p.page_number ≤ m) →
      l.foldl (fun a p => Nat.max a p.page_number) a ≤ m := by
  intro l
  induction l with
  | nil =>
      intro a ha _
      simpa using ha
  | cons q t ih =>
      intro a ha hl
      simp only [List.foldl_cons]
      exact ih _ (Nat.max_le.mpr ⟨ha, hl q (by simp)⟩)
        (fun p hp => hl p (List.mem_cons_of_mem q hp))

theorem le_foldl_max :
    ∀ (l : List PageRow) (a : Nat), a ≤ l.foldl (fun a p => Nat.max a p.page_number) a := by
  intro l
  induction l with
  | nil => intro a; simp
  | cons q t ih =>
      intro a
      simp only [List.foldl_cons]
      exact le_trans (Nat.le_max_left _ _) (ih _)

theorem mem_le_foldl_max :
    ∀ (l : List PageRow) (a : Nat) (p : PageRow), p ∈ l →
      p.page_number ≤ l.foldl (fun a q => Nat.max a q.page_number) a := by
  intro l
  induction l with
  | nil =>
      intro a p hp
      cases hp
  | cons q t ih =>
      intro a p hp
      simp only [List.foldl_cons]
      rcases List.mem_cons.mp hp with rfl | hmem
      · exact le_trans (Nat.le_max_right _ _) (le_foldl_max t _)
      · exact ih _ p hmem

theorem activePages_softDeleted_le (db : DB) (pageId : Nat) (page : PageRow)
    (hmax : ∀ p ∈ db.document_pages, p.document_id = page.document_id →
      statusActive p.status = true → p.id ≠ pageId →
      p.page_number < page.page_number) :
    ∀ q ∈ (db.document_pages.map (fun p =>
        if p.id == pageId then { p with status := some "inactive" } else p)).filter
        (fun p => p.document_id == page.document_id && statusActive p.status),
      q.page_number ≤ page.page_number - 1 := by
  intro q hq
  obtain ⟨hqmem, hqcond⟩ := List.mem_filter.mp hq
  rcases List.mem_map.mp hqmem with ⟨p, hpmem, rfl⟩
  by_cases hpid : p.id = pageId
  · rw [if_pos (by simpa using hpid)] at hqcond
    simp [statusActive] at hqcond
  · rw [if_neg (by simpa using hpid)] at hqcond
    have h1 := (Bool.and_eq_true _ _).mp hqcond
    have hdoc : p.document_id = page.document_id := by simpa using h1.1
    rw [if_neg (by simpa using hpid)]
    have := hmax p hpmem hdoc h1.2 hpid
    omega

theorem mem_activePages_softDeleted (db : DB) (pageId docId : Nat)
    (p0 : PageRow) (hp0mem : p0 ∈ db.document_pages)
    (hp0doc : p0.document_id = docId) (hp0act : statusActive p0.status = true)
    (hp0ne : p0.id ≠ pageId) :
    p0 ∈ (db.document_pages.map (fun p =>
        if p.id == pageId then { p with status := some "inactive" } else p)).filter
        (fun p => p.document_id == docId && statusActive p.status) := by
  refine List.mem_filter.mpr ⟨?_, ?_⟩
  · refine List.mem_map.mpr ⟨p0, hp0mem, ?_⟩
    rw [if_neg (by simpa using hp0ne)]
  · simp [hp0doc, hp0act]

/-- After soft-deleting the strictly highest-numbered active page, the
allocator returns at most that page’s number. -/
theorem softDelete_top_allocator_le (db : DB) (pageId : Nat) (page : PageRow)
    (hfind : findPage db pageId = some page)
    (hmax : ∀ p ∈ db.document_pages, p.document_id = page.document_id →
      statusActive p.status = true → p.id ≠ pageId →
      p.page_number < page.page_number)
    (hM1 : 1 ≤ page.page_number) :
    ∃ db' r, softDeletePage pageId db = Except.ok (db', page.document_id, r)
      ∧ getNextPageNumber db' page.document_id ≤ page.page_number := by
  refine ⟨{ db with
      documents := db.documents.map (fun d =>
        if d.id == page.document_id then
          { d with total_pages := (activePagesOf { db with
              document_pages := db.document_pages.map (fun p =>
                if p.id == pageId then { p with status := some "inactive" }
                else p) } page.document_id).length }
        else d),
      document_pages := db.document_pages.map (fun p =>
        if p.id == pageId then { p with status := some "inactive" } else p),
      document_fts := db.document_fts.filter (fun r => r.page_id != pageId) },
    (activePagesOf { db with
      document_pages := db.document_pages.map (fun p =>
        if p.id == pageId then { p with status := some "inactive" }
        else p) } page.document_id).length, ?_, ?_⟩
  · unfold softDeletePage
    rw [hfind]
    rfl
  · show maxPageNumber ((db.document_pages.map (fun p =>
        if p.id == pageId then { p with status := some "inactive" } else p)).filter
        (fun p => p.document_id == page.document_id && statusActive p.status)) + 1
      ≤ page.page_number
    have hub := foldl_max_le (page.page_number - 1) _ 0 (by omega)
      (activePages_softDeleted_le db pageId page hmax)
    unfold maxPageNumber
    omega

/-- After soft-deleting the strictly highest-numbered active page, when an
active sibling numbered one below remains, the allocator returns the deleted
page’s number again. -/
theorem softDelete_top_allocator_eq (db : DB) (pageId : Nat) (page : PageRow)
    (hfind : findPage db pageId = some page)
    (hmax : ∀ p ∈ db.document_pages, p.document_id = page.document_id →
      statusActive p.status = true → p.id ≠ pageId →
      p.page_number < page.page_number)
    (hdense : ∃ p ∈ db.document_pages, p.document_id = page.document_id
      ∧ statusActive p.status = true ∧ p.id ≠ pageId
      ∧ p.page_number = page.page_number - 1) :
    ∃ db' r, softDeletePage pageId db = Except.ok (db', page.document_id, r)
      ∧ getNextPageNumber db' page.document_id = page.page_number := by
  obtain ⟨p0, hp0mem, hp0doc, hp0act, hp0ne, hp0num⟩ := hdense
  have hM1 : 1 ≤ page.page_number := by
    have := hmax p0 hp0mem hp0doc hp0act hp0ne
    omega
  refine ⟨{ db with
      documents := db.documents.map (fun d =>
        if d.id == page.document_id then
          { d with total_pages := (activePagesOf { db with
              document_pages := db.document_pages.map (fun p =>
                if p.id == pageId then { p with status := some "inactive" }
                else p) } page.document_id).length }
        else d),
      document_pages := db.document_pages.map (fun p =>
        if p.id == pageId then { p with status := some "inactive" } else p),
      document_fts := db.document_fts.filter (fun r => r.page_id != pageId) },
    (activePagesOf { db with
      document_pages := db.document_pages.map (fun p =>
        if p.id == pageId then { p with status := some "inactive" }
        else p) } page.document_id).length, ?_, ?_⟩
  · unfold softDeletePage
    rw [hfind]
    rfl
  · show maxPageNumber ((db.document_pages.map (fun p =>
        if p.id == pageId then { p with status := some "inactive" } else p)).filter
        (fun p => p.document_id == page.document_id && statusActive p.status)) + 1
      = page.page_number
    have hub := foldl_max_le (page.page_number - 1) _ 0 (by omega)
      (activePages_softDeleted_le db pageId page hmax)
    have hlb := mem_le_foldl_max _ 0 p0
      (mem_activePages_softDeleted db pageId page.document_id p0 hp0mem hp0doc
        hp0act hp0ne)
    unfold maxPageNumber
    rw [hp0num] at hlb
    omega

/-- Fixture: a page of document 1 numbered 3, leaving a gap below it. -/
def pageGap3 : PageRow :=
  { pageFix with
    id := 2, page_number := 3, page_order := 3,
    file_name := "scan.pdf - Page 3" }

/-- Fixture: `dbFix` with active pages numbered 1 and 3 (gap at 2). -/
def dbGapPages : DB :=
  { dbFix with document_pages := [pageFix, pageGap3], nextPageId := 3 }

/-- Database state after soft-deleting the top-numbered page of `dbGapPages`. -/
def dbGapAfter : DB :=
  match softDeletePage 2 dbGapPages with
  | Except.ok x => x.1
  | Except.error _ => dbGapPages

/-- Counterexample to claim C10: in `dbGapPages` the active pages of document
1 are numbered 1 and 3, so page id 2 (numbered 3) is the highest-numbered
page; soft-deleting it makes `getNextPageNumber` return 2, not “that same
number” 3 — refuting the claim’s universal “the allocator returns that same
number again”. -/
theorem claim_C10_counterexample :
    maxPageNumber (activePagesOf dbGapPages 1) = 3
    ∧ findPage dbGapPages 2 = some pageGap3
    ∧ pageGap3.page_number = 3
    ∧ softDeletePage 2 dbGapPages = Except.ok (dbGapAfter, 1, 1)
    ∧ getNextPageNumber dbGapAfter 1 = 2
    ∧ getNextPageNumber dbGapAfter 1 ≠ pageGap3.page_number :=
  ⟨by rfl, by rfl, by rfl, by rfl, by rfl, by decide⟩

/-- Claim C10 (amended): `getNextPageNumber` considers only active pages:
(1) an inactive page is invisible to it; (2) a document with no active pages
yields 1 regardless of inactive pages; (3) it allocates strictly above every
active page’s number — freshness is guaranteed against active pages only;
(4) after soft-deleting the highest-numbered (1-based) active page the
allocator returns at most that page’s number, so an inactive sibling’s
number may be reissued to a newly ingested page; and (5) it returns exactly
that number again when an active sibling numbered one below remains. -/
theorem claim_C10_amended_allocator :
    (∀ (db : DB) (p : PageRow) (documentId : Nat), statusActive p.status = false →
        getNextPageNumber { db with document_pages := p :: db.document_pages }
            documentId
          = getNextPageNumber db documentId)
    ∧ (∀ (db : DB) (documentId : Nat),
        (∀ p ∈ db.document_pages, p.document_id = documentId →
          statusActive p.status = false) →
        getNextPageNumber db documentId = 1)
    ∧ (∀ (db : DB) (documentId : Nat) (p : PageRow), p ∈ db.document_pages →
        p.document_id = documentId → statusActive p.status = true →
        p.page_number < getNextPageNumber db documentId)
    ∧ (∀ (db : DB) (pageId : Nat) (page : PageRow),
        findPage db pageId = some page →
        (∀ p ∈ db.document_pages, p.document_id = page.document_id →
          statusActive p.status = true → p.id ≠ pageId →
          p.page_number < page.page_number) →
        1 ≤ page.page_number →
        ∃ db' r, softDeletePage pageId db = Except.ok (db', page.document_id, r)
          ∧ getNextPageNumber db' page.document_id ≤ page.page_number)
    ∧ (∀ (db : DB) (pageId : Nat) (page : PageRow),
        findPage db pageId = some page →
        (∀ p ∈ db.document_pages, p.document_id = page.document_id →
          statusActive p.status = true → p.id ≠ pageId →
          p.page_number < page.page_number) →
        (∃ p ∈ db.document_pages, p.document_id = page.document_id
          ∧ statusActive p.status = true ∧ p.id ≠ pageId
          ∧ p.page_number = page.page_number - 1) →
        ∃ db' r, softDeletePage pageId db = Except.ok (db', page.document_id, r)
          ∧ getNextPageNumber db' page.document_id = page.page_number) := by
  refine ⟨?_, ?_, ?_, ?_, ?_⟩
  · intro db p documentId hinact
    unfold getNextPageNumber activePagesOf
    simp only [List.filter_cons]
    rw [if_neg (by simp [hinact])]
  · intro db documentId hall
    unfold getNextPageNumber activePagesOf maxPageNumber
    have : db.document_pages.filter
        (fun p => p.document_id == documentId && statusActive p.status) = [] := by
      refine List.filter_eq_nil_iff.mpr (fun p hp hcond => ?_)
      have h1 := (Bool.and_eq_true _ _).mp hcond
      have h2 : p.document_id = documentId := by simpa using h1.1
      rw [hall p hp h2] at h1
      cases h1.2
    rw [this]
    rfl
  · intro db documentId p hpmem hpdoc hpact
    unfold getNextPageNumber
    have hmem : p ∈ activePagesOf db documentId :=
      List.mem_filter.mpr ⟨hpmem, by simp [hpdoc, hpact]⟩
    have := mem_le_foldl_max (activePagesOf db documentId) 0 p hmem
    unfold maxPageNumber
    omega
  · intro db pageId page hfind hmax hM1
    exact softDelete_top_allocator_le db pageId page hfind hmax hM1
  · intro db pageId page hfind hmax hdense
    exact softDelete_top_allocator_eq db pageId page hfind hmax hdense

/-- Fixture: a second active page of document 1 numbered 2. -/
def pageFix2 : PageRow :=
  { pageFix with
    id := 2, page_number := 2, page_order := 2,
    file_name := "scan.pdf - Page 2" }

/-- Fixture: `dbFix` with two active pages numbered 1 and 2. -/
def dbTwoPages : DB :=
  { dbFix with document_pages := [pageFix, pageFix2], nextPageId := 3 }

/-- Witness for the amended C10: soft-deleting page 2 (the top-numbered page,
with its sibling numbered one below) of `dbTwoPages` makes the allocator
return 2 again — the inactive page’s own number. -/
theorem claim_C10_amended_allocator_witness :
    ∃ db' r, softDeletePage 2 dbTwoPages
        = Except.ok (db', pageFix2.document_id, r)
      ∧ getNextPageNumber db' pageFix2.document_id = pageFix2.page_number :=
  claim_C10_amended_allocator.2.2.2.2 dbTwoPages 2 pageFix2 (by rfl) (by decide)
    (by decide)

end Zapdm
